import Mathlib

/-!
Verification of the WebSocket RPC session layer of `tauri-mcp`
(`src/packages/server/src/client.ts`), shallowly embedded in Lean.

The embedded state mirrors the module-level mutable `clientState` of the
source.  On top of it we keep a ghost store `requests` recording, for every
request ever registered by `sendCommand`, its generated id, command name,
timeout, whether its deadline timer is still armed, whether the socket send
callback has fired, and the settlement of its promise.  A promise settles at
most once (JavaScript promise semantics): `settleReq` records only the first
outcome.

Event handlers (`handleMessage`, `handleClose`, `disconnect`, `connect`,
the `setTimeout` deadline callback, the `ws.send` error callback, the
reconnect timer callback and the keep-alive tick) are translated from the
source one statement at a time.
-/

namespace TauriMcp

/-- Response envelope, from `PluginResponse` in client.ts.  The opaque
`data` payload is modelled as an optional string. -/
structure PluginResponse where
  id : String
  success : Bool
  data : Option String
  error : Option String
deriving DecidableEq

/-- Terminal event delivered to a `sendCommand` caller: its promise is
either resolved with a response envelope or rejected with an error
message. -/
inductive Outcome where
  | resolved (resp : PluginResponse)
  | rejected (msg : String)
deriving DecidableEq

/-- Ghost record for one request registered by `sendCommand`.  `settled`
is the first (and only) outcome delivered to the caller's promise;
`timerArmed` tracks whether the `setTimeout` deadline timer is still
scheduled; `sendCbDone` tracks whether the `ws.send` completion callback
has already run. -/
structure ReqRecord where
  rid : String
  command : String
  timeoutMs : Nat
  settled : Option Outcome
  timerArmed : Bool
  sendCbDone : Bool
deriving DecidableEq

/-- Mirror of `ClientState` in client.ts.  `ws = none` models `ws: null`;
`ws = some b` models a socket whose `readyState` is `OPEN` iff `b`.
`pendingRequests` is the Map from request id to the index of the request's
record in the ghost store.  `reconnectTimeout = some (h, p)` models a
scheduled reconnection timer whose callback captured host `h` and port
`p`. -/
structure ClientState where
  ws : Option Bool
  host : String
  port : Nat
  pendingRequests : List (String × Nat)
  reconnectAttempts : Nat
  shouldReconnect : Bool
  pingInterval : Bool
  reconnectTimeout : Option (String × Nat)
deriving DecidableEq

/-- Whole module state: the nullable `clientState` plus the ghost request
store. -/
structure World where
  clientState : Option ClientState
  requests : List ReqRecord
deriving DecidableEq

/-! ## Configuration constants, from client.ts -/

def maxReconnectAttempts : Nat := 3
def reconnectDelayMs : Nat := 1000
def pingIntervalMs : Nat := 30000
def defaultTimeout : Nat := 10000
def defaultHost : String := "localhost"
def defaultPort : Nat := 9223

/-! ## Error messages, from client.ts -/

def connectionClosedMessage : String := "Connection closed"
def disconnectedMessage : String := "Disconnected"
def notConnectedMessage : String :=
  "Not connected. Call tauri_session with action 'start' first."

/-- `Request timed out after ${timeoutMs}ms` from the deadline callback in
`sendCommand`. -/
def timeoutMessage (timeoutMs : Nat) : String :=
  "Request timed out after " ++ toString timeoutMs ++ "ms"

/-- `req_${Date.now()}_${Math.random().toString(36).slice(2, 11)}` from
`generateRequestId`; `now` is the millisecond timestamp observed, `rand`
the random suffix observed. -/
def generateRequestId (now : Nat) (rand : String) : String :=
  "req_" ++ toString now ++ "_" ++ rand

/-! ## The pending-request Map (association list with unique keys) -/

def mapGet (m : List (String × Nat)) (k : String) : Option Nat :=
  (m.find? (fun p => p.1 == k)).map (fun p => p.2)

def mapDelete (m : List (String × Nat)) (k : String) : List (String × Nat) :=
  m.filter (fun p => p.1 != k)

def mapSet (m : List (String × Nat)) (k : String) (v : Nat) : List (String × Nat) :=
  mapDelete m k ++ [(k, v)]

/-- `true` iff no key occurs twice. -/
def keysNodup : List (String × Nat) → Bool
  | [] => true
  | p :: rest => !(rest.any (fun q => q.1 == p.1)) && keysNodup rest

/-! ## The ghost request store -/

def updateAt : List ReqRecord → Nat → (ReqRecord → ReqRecord) → List ReqRecord
  | [], _, _ => []
  | x :: xs, 0, f => f x :: xs
  | x :: xs, Nat.succ n, f => x :: updateAt xs n f

/-- First-wins promise settlement: `resolve`/`reject` on an already
settled promise is a no-op. -/
def settleReq (o : Outcome) (q : ReqRecord) : ReqRecord :=
  if q.settled = none then { q with settled := some o } else q

/-- `clearTimeout` on the request's deadline timer (or the timer having
fired). -/
def disarmReq (q : ReqRecord) : ReqRecord := { q with timerArmed := false }

/-- Cancel the deadline timer and settle the promise with outcome `o`. -/
def completeReq (o : Outcome) (q : ReqRecord) : ReqRecord :=
  settleReq o (disarmReq q)

/-- Settlement of the `r`-th request in a store: `none` if no such request,
`some s` with `s` its (optional) outcome otherwise. -/
def settledAt (l : List ReqRecord) (r : Nat) : Option (Option Outcome) :=
  (l[r]?).map (fun q => q.settled)

def settledOf (w : World) (r : Nat) : Option (Option Outcome) :=
  settledAt w.requests r

def armedOf (w : World) (r : Nat) : Bool :=
  ((w.requests[r]?).map (fun q => q.timerArmed)).getD false

/-- A request is `good` when it is settled or its deadline timer is still
armed: its caller is guaranteed a terminal event. -/
def goodB (q : ReqRecord) : Bool := q.settled != none || q.timerArmed

/-! ## Event handlers, translated from client.ts -/

/-- `handleMessage`: parse already done; if the envelope's id is truthy and
present in `pendingRequests`, clear the entry's timer, delete it and
resolve its promise with the envelope; otherwise silently drop. -/
def handleMessage (w : World) (msg : PluginResponse) : World :=
  match w.clientState with
  | none => w
  | some c =>
    if msg.id ≠ "" then
      match mapGet c.pendingRequests msg.id with
      | some r =>
        { clientState := some { c with pendingRequests := mapDelete c.pendingRequests msg.id },
          requests := updateAt w.requests r (completeReq (Outcome.resolved msg)) }
      | none => w
    else w

/-- The `setTimeout` deadline callback registered in `sendCommand` for
request `r`: fires only while the timer is armed; deletes the map entry
under the request's id (`clientState?.pendingRequests.delete(id)`) and
rejects with the timeout message. -/
def fireTimer (w : World) (r : Nat) : World :=
  match w.requests[r]? with
  | none => w
  | some q =>
    if q.timerArmed then
      { clientState := w.clientState.map
          (fun c => { c with pendingRequests := mapDelete c.pendingRequests q.rid }),
        requests := updateAt w.requests r (completeReq (Outcome.rejected (timeoutMessage q.timeoutMs))) }
    else w

/-- The `ws.send` completion callback for request `r`, in the error case:
runs at most once; clears the deadline timer, deletes the map entry under
the request's id and rejects with the socket error's message. -/
def fireSendError (w : World) (r : Nat) (errMsg : String) : World :=
  match w.requests[r]? with
  | none => w
  | some q =>
    if q.sendCbDone then w
    else
      { clientState := w.clientState.map
          (fun c => { c with pendingRequests := mapDelete c.pendingRequests q.rid }),
        requests := updateAt w.requests r
          (fun q2 => completeReq (Outcome.rejected errMsg) { q2 with sendCbDone := true }) }

/-- The `for (const [id, pending] of pendingRequests)` loops of
`handleClose` and `disconnect`: clear each entry's timer and reject its
promise with `msg`, deleting every entry. -/
def rejectPending (msg : String) : List (String × Nat) → List ReqRecord → List ReqRecord
  | [], reqs => reqs
  | p :: rest, reqs =>
    rejectPending msg rest (updateAt reqs p.2 (completeReq (Outcome.rejected msg)))

/-- `handleClose`: clear the ping interval, reject all pending requests
with "Connection closed", null the socket, and — if reconnection is
enabled and the attempt counter is below the bound — increment the counter
and schedule a reconnection after `reconnectDelayMs * attempts`,
capturing the current host and port.  Returns the scheduled delay, if
any. -/
def handleClose (w : World) : World × Option Nat :=
  match w.clientState with
  | none => (w, none)
  | some c =>
    if c.shouldReconnect ∧ c.reconnectAttempts < maxReconnectAttempts then
      ({ clientState := some { c with pingInterval := false, pendingRequests := [], ws := none, reconnectAttempts := c.reconnectAttempts + 1, reconnectTimeout := some (c.host, c.port) },
         requests := rejectPending connectionClosedMessage c.pendingRequests w.requests },
       some (reconnectDelayMs * (c.reconnectAttempts + 1)))
    else
      ({ clientState := some { c with pingInterval := false, pendingRequests := [], ws := none },
         requests := rejectPending connectionClosedMessage c.pendingRequests w.requests },
       none)

/-- `disconnect`: disable reconnection, cancel the reconnect timer and
ping interval, close and null the socket, reject all pending requests
with "Disconnected", and null the module state. -/
def disconnect (w : World) : World :=
  match w.clientState with
  | none => w
  | some c =>
    { clientState := none,
      requests := rejectPending disconnectedMessage c.pendingRequests w.requests }

/-- The fresh `ClientState` object literal created inside `connect`:
a connecting (not yet open) socket, empty pending map, attempt counter
zero, reconnection enabled, no timers. -/
def freshClientState (host : String) (port : Nat) : ClientState :=
  { ws := some false, host := host, port := port, pendingRequests := [],
    reconnectAttempts := 0, shouldReconnect := true,
    pingInterval := false, reconnectTimeout := none }

/-- The synchronous prefix of `connect(host, port)`: if already connected
to the same host and port, return unchanged; otherwise tear down any
existing socket via `disconnect()` and install a fresh state with a
connecting socket. -/
def connectSync (w : World) (host : String) (port : Nat) : World :=
  match w.clientState with
  | some c =>
    if c.ws == some true && c.host == host && c.port == port then w
    else if c.ws.isSome then
      { clientState := some (freshClientState host port),
        requests := (disconnect w).requests }
    else
      { clientState := some (freshClientState host port), requests := w.requests }
  | none => { clientState := some (freshClientState host port), requests := w.requests }

/-- The `ws.on("open", ...)` handler together with the readyState change:
the socket becomes open, the attempt counter is reset to zero, and
`startPingInterval` starts the keep-alive timer. -/
def wsOpenEvent (w : World) : World :=
  match w.clientState with
  | none => w
  | some c =>
    let c2 : ClientState :=
      { c with ws := some true, reconnectAttempts := 0, pingInterval := true }
    { w with clientState := some c2 }

/-- The reconnect timer callback scheduled in `handleClose`: if the module
state is gone, do nothing; otherwise clear the timer field and call
`connect` with the captured host and port. -/
def reconnectFire (w : World) : World :=
  match w.clientState with
  | none => w
  | some c =>
    match c.reconnectTimeout with
    | none => w
    | some hp =>
      connectSync
        { clientState := some { c with reconnectTimeout := none },
          requests := w.requests } hp.1 hp.2

/-- The keep-alive interval callback: sends a ping iff the socket's
readyState is OPEN; it touches no client state.  Returns whether a ping
frame was sent. -/
def pingTick (w : World) : World × Bool :=
  (w, match w.clientState with
      | some c => c.ws == some true
      | none => false)

/-- `sendCommand`: throws `notConnectedMessage` unless the socket is open;
otherwise generates an id, registers a pending entry with an armed
deadline timer, and sends.  Returns the index of the new ghost record. -/
def sendCommand (w : World) (command : String) (timeoutMs : Nat)
    (now : Nat) (rand : String) : World × Except String Nat :=
  match w.clientState with
  | none => (w, Except.error notConnectedMessage)
  | some c =>
    if c.ws == some true then
      ({ clientState := some { c with pendingRequests := mapSet c.pendingRequests (generateRequestId now rand) w.requests.length },
         requests := w.requests ++ [{ rid := generateRequestId now rand, command := command, timeoutMs := timeoutMs, settled := none, timerArmed := true, sendCbDone := false }] },
       Except.ok w.requests.length)
    else (w, Except.error notConnectedMessage)

/-! ## Event-driven execution -/

/-- One occurrence of an asynchronous event: a caller action, a socket
event, or a timer firing. -/
inductive Event where
  | send (command : String) (timeoutMs : Nat) (now : Nat) (rand : String)
  | message (msg : PluginResponse)
  | timer (r : Nat)
  | sendErr (r : Nat) (errMsg : String)
  | close
  | reconnect
  | wsOpen
  | ping
  | connectTo (host : String) (port : Nat)
  | disconnectCall
deriving DecidableEq

def step (w : World) : Event → World
  | .send cmd t now rand => (sendCommand w cmd t now rand).1
  | .message msg => handleMessage w msg
  | .timer r => fireTimer w r
  | .sendErr r m => fireSendError w r m
  | .close => (handleClose w).1
  | .reconnect => reconnectFire w
  | .wsOpen => wsOpenEvent w
  | .ping => (pingTick w).1
  | .connectTo h p => connectSync w h p
  | .disconnectCall => disconnect w

def run (w : World) (tr : List Event) : World := tr.foldl step w

/-- Initial module state: `clientState = null`, nothing ever requested. -/
def init : World := { clientState := none, requests := [] }

/-- Well-formedness of one pending map entry against the ghost store: it
points at an existing record that is unsettled, has an armed timer,
carries the entry's key as its id, and the key is truthy. -/
def entryOk (reqs : List ReqRecord) (p : String × Nat) : Bool :=
  match reqs[p.2]? with
  | some q => q.settled == none && q.timerArmed && q.rid == p.1 && p.1 != ""
  | none => false

/-- `isConnected` from client.ts: a socket exists and its readyState is
OPEN. -/
def isConnected (w : World) : Bool :=
  match w.clientState with
  | some c => c.ws == some true
  | none => false

/-- Request `q` was failed with message `msg`: promise rejected with `msg`
and deadline timer cancelled. -/
def failedD (msg : String) (q : ReqRecord) : Prop :=
  q.settled = some (Outcome.rejected msg) ∧ q.timerArmed = false

/-- Precondition under which the fail-all loop rejects a request with
`msg`: it is still unsettled, or an earlier iteration already failed it
with the same message. -/
def pendingD (msg : String) (q : ReqRecord) : Prop :=
  q.settled = none ∨ failedD msg q

/-- The pending map (when a session exists) has no duplicate keys. -/
def wfKeys (w : World) : Prop :=
  ∀ c, w.clientState = some c → keysNodup c.pendingRequests = true

/-- Executable prefix test on character lists. -/
def isPrefixB : List Char → List Char → Bool
  | [], _ => true
  | _ :: _, [] => false
  | a :: as, b :: bs => a == b && isPrefixB as bs

/-- Executable substring test on character lists. -/
def isSubstrB (needle : List Char) : List Char → Bool
  | [] => isPrefixB needle []
  | c :: cs => isPrefixB needle (c :: cs) || isSubstrB needle cs

/-! ## Concrete states and traces used by counterexamples and witnesses -/

/-- Connect, open, then issue one command observing timestamp 5 and random
suffix "ab": one pending request. -/
def trPendingOne : List Event :=
  [Event.connectTo "h" 1, Event.wsOpen, Event.send "echo" 100 5 "ab"]

/-- The state after an unplanned close of an open default connection. -/
def afterFirstLoss : World :=
  run init [Event.connectTo defaultHost defaultPort, Event.wsOpen, Event.close]

/-- One failed reconnection attempt while the server stays down: the
scheduled reconnect timer fires (its `connect` call fails), and the failed
socket emits its close event. -/
def serverDownCycle : List Event := [Event.reconnect, Event.close]

def cycles : Nat → List Event
  | 0 => []
  | Nat.succ k => serverDownCycle ++ cycles k

/-- Open connection with a pending "screenshot" request using the default
10s timeout. -/
def wScreenshot : World :=
  run init [Event.connectTo "h" 1, Event.wsOpen,
    Event.send "screenshot" 10000 5 "ab"]

/-- An open connection with the keep-alive interval running. -/
def wOpenPing : World := run init [Event.connectTo "h" 1, Event.wsOpen]

/-- Two commands issued in the same millisecond with the same random
suffix. -/
def collideTrace : List Event :=
  [Event.connectTo "h" 1, Event.wsOpen,
   Event.send "cmd_a" 100 5 "zz", Event.send "cmd_b" 100 5 "zz"]

/-- The client state reached by `run init trPendingOne`. -/
def cPending1 : ClientState :=
  { ws := some true, host := "h", port := 1, pendingRequests := [("req_5_ab", 0)],
    reconnectAttempts := 0, shouldReconnect := true, pingInterval := true,
    reconnectTimeout := none }

/-- The client state reached by `run init collideTrace`: the second
registration overwrote the first entry. -/
def cCollide : ClientState :=
  { ws := some true, host := "h", port := 1, pendingRequests := [("req_5_zz", 1)],
    reconnectAttempts := 0, shouldReconnect := true, pingInterval := true,
    reconnectTimeout := none }

/-- The client state reached by `run init [connectTo "h" 1, wsOpen]`. -/
def cOpen : ClientState :=
  { ws := some true, host := "h", port := 1, pendingRequests := [],
    reconnectAttempts := 0, shouldReconnect := true, pingInterval := true,
    reconnectTimeout := none }

/-- The client state reached by `run init` on the trace of `wScreenshot`. -/
def cPendingScreenshot : ClientState :=
  { ws := some true, host := "h", port := 1, pendingRequests := [("req_5_ab", 0)],
    reconnectAttempts := 0, shouldReconnect := true, pingInterval := true,
    reconnectTimeout := none }

/-- The request record registered in `wScreenshot`. -/
def reqScreenshot : ReqRecord :=
  { rid := "req_5_ab", command := "screenshot", timeoutMs := 10000,
    settled := none, timerArmed := true, sendCbDone := false }

/-- The request record registered in `run init trPendingOne`. -/
def reqEcho : ReqRecord :=
  { rid := "req_5_ab", command := "echo", timeoutMs := 100,
    settled := none, timerArmed := true, sendCbDone := false }

/-- A response envelope reporting remote failure (`success: false`) for the
request pending in `run init trPendingOne`. -/
def msgFalse : PluginResponse :=
  { id := "req_5_ab", success := false, data := none, error := some "boom" }

/-- A response envelope whose id matches no pending request. -/
def msgUnknown : PluginResponse :=
  { id := "req_none", success := true, data := none, error := none }

/-! ## Lemmas: the ghost store -/

theorem updateAt_length (l : List ReqRecord) (n : Nat) (f : ReqRecord → ReqRecord) :
    (updateAt l n f).length = l.length := by
  induction l generalizing n with
  | nil => rfl
  | cons x xs ih =>
    cases n with
    | zero => rfl
    | succ m => simp only [updateAt, List.length_cons, ih]

theorem getElem?_updateAt_self (l : List ReqRecord) (n : Nat) (f : ReqRecord → ReqRecord) :
    (updateAt l n f)[n]? = (l[n]?).map f := by
  induction l generalizing n with
  | nil => rfl
  | cons x xs ih =>
    cases n with
    | zero => simp [updateAt]
    | succ m => simpa only [updateAt, List.getElem?_cons_succ] using ih m

theorem getElem?_updateAt_ne (l : List ReqRecord) (n m : Nat) (f : ReqRecord → ReqRecord)
    (h : m ≠ n) : (updateAt l n f)[m]? = l[m]? := by
  induction l generalizing n m with
  | nil => rfl
  | cons x xs ih =>
    cases n with
    | zero =>
      cases m with
      | zero => exact absurd rfl h
      | succ m2 => simp only [updateAt, List.getElem?_cons_succ]
    | succ n2 =>
      cases m with
      | zero => simp only [updateAt, List.getElem?_cons_zero]
      | succ m2 =>
        simp only [updateAt, List.getElem?_cons_succ]
        exact ih n2 m2 (fun hh => h (by rw [hh]))

theorem getElem?_updateAt_pres (P : ReqRecord → Prop) (f : ReqRecord → ReqRecord)
    (hf : ∀ q, P q → P (f q)) (l : List ReqRecord) (n r : Nat) (q : ReqRecord)
    (hget : l[r]? = some q) (hq : P q) :
    ∃ q2, (updateAt l n f)[r]? = some q2 ∧ P q2 := by
  by_cases h : r = n
  · subst h
    refine ⟨f q, ?_, hf q hq⟩
    rw [getElem?_updateAt_self, hget]
    rfl
  · exact ⟨q, by rw [getElem?_updateAt_ne l n r f h, hget], hq⟩

theorem all_updateAt (p : ReqRecord → Bool) (f : ReqRecord → ReqRecord)
    (hf : ∀ q, p (f q) = true) (l : List ReqRecord) (n : Nat)
    (hl : l.all p = true) : (updateAt l n f).all p = true := by
  induction l generalizing n with
  | nil => rfl
  | cons x xs ih =>
    simp only [List.all_cons, Bool.and_eq_true] at hl
    cases n with
    | zero =>
      simp only [updateAt, List.all_cons, Bool.and_eq_true]
      exact ⟨hf x, hl.2⟩
    | succ m =>
      simp only [updateAt, List.all_cons, Bool.and_eq_true]
      exact ⟨hl.1, ih m hl.2⟩

theorem settled_completeReq (o : Outcome) (q : ReqRecord) :
    (completeReq o q).settled = if q.settled = none then some o else q.settled := by
  unfold completeReq settleReq disarmReq
  by_cases h : q.settled = none <;> simp [h]

theorem timerArmed_completeReq (o : Outcome) (q : ReqRecord) :
    (completeReq o q).timerArmed = false := by
  unfold completeReq settleReq disarmReq
  by_cases h : q.settled = none <;> simp [h]

theorem goodB_completeReq (o : Outcome) (q : ReqRecord) :
    goodB (completeReq o q) = true := by
  unfold goodB
  rw [settled_completeReq]
  by_cases h : q.settled = none <;> simp [h]

theorem completeReq_settled_stable (o2 o : Outcome) (q : ReqRecord)
    (h : q.settled = some o) : (completeReq o2 q).settled = some o := by
  rw [settled_completeReq, h]
  simp

theorem settledAt_eq_some (l : List ReqRecord) (r : Nat) (s : Option Outcome) :
    settledAt l r = some s ↔ ∃ q, l[r]? = some q ∧ q.settled = s := by
  simp [settledAt, Option.map_eq_some']

/-! ## Lemmas: the pending map -/

theorem mapGet_cons (p : String × Nat) (rest : List (String × Nat)) (k : String) :
    mapGet (p :: rest) k = if p.1 == k then some p.2 else mapGet rest k := by
  cases hh : (p.1 == k) with
  | false => simp [mapGet, List.find?_cons, hh]
  | true => simp [mapGet, List.find?_cons, hh]

theorem mapDelete_cons (p : String × Nat) (rest : List (String × Nat)) (k : String) :
    mapDelete (p :: rest) k =
      if p.1 == k then mapDelete rest k else p :: mapDelete rest k := by
  unfold mapDelete
  rw [List.filter_cons]
  cases hh : (p.1 == k) with
  | false => simp [bne, hh]
  | true => simp [bne, hh]

theorem mapGet_mapDelete_self (m : List (String × Nat)) (k : String) :
    mapGet (mapDelete m k) k = none := by
  induction m with
  | nil => rfl
  | cons p rest ih =>
    rw [mapDelete_cons]
    cases hh : (p.1 == k) with
    | false => rw [if_neg (by simp [hh]), mapGet_cons, if_neg (by simp [hh])]; exact ih
    | true => rw [if_pos rfl]; exact ih

theorem mapGet_mapDelete_ne (m : List (String × Nat)) (k k2 : String) (h : k2 ≠ k) :
    mapGet (mapDelete m k) k2 = mapGet m k2 := by
  induction m with
  | nil => rfl
  | cons p rest ih =>
    rw [mapDelete_cons, mapGet_cons]
    cases hh : (p.1 == k) with
    | false =>
      rw [if_neg (by simp [hh]), mapGet_cons]
      cases hq : (p.1 == k2) with
      | false => rw [if_neg (by simp [hq]), if_neg (by simp [hq])]; exact ih
      | true => rw [if_pos rfl, if_pos rfl]
    | true =>
      have hp := beq_iff_eq.mp hh
      have hq : (p.1 == k2) = false := beq_eq_false_iff_ne.mpr (fun hh2 => h (hh2 ▸ hp))
      rw [if_pos rfl, if_neg (by simp [hq])]
      exact ih

theorem any_filter_false (l : List (String × Nat)) (pf q : String × Nat → Bool)
    (h : l.any q = false) : (l.filter pf).any q = false := by
  induction l with
  | nil => rfl
  | cons p rest ih =>
    simp only [List.any_cons, Bool.or_eq_false_iff] at h
    by_cases hp : pf p = true
    · simp only [List.filter_cons, hp, if_true, List.any_cons, Bool.or_eq_false_iff]
      exact ⟨h.1, ih h.2⟩
    · simp only [List.filter_cons, Bool.not_eq_true] at hp ⊢
      rw [hp]
      exact ih h.2

theorem keysNodup_filter (m : List (String × Nat)) (pf : String × Nat → Bool)
    (h : keysNodup m = true) : keysNodup (m.filter pf) = true := by
  induction m with
  | nil => rfl
  | cons p rest ih =>
    simp only [keysNodup, Bool.and_eq_true, Bool.not_eq_true'] at h
    by_cases hp : pf p = true
    · simp only [List.filter_cons, hp, if_true, keysNodup, Bool.and_eq_true,
        Bool.not_eq_true']
      exact ⟨any_filter_false rest pf _ h.1, ih h.2⟩
    · simp only [Bool.not_eq_true] at hp
      simp only [List.filter_cons, hp, Bool.false_eq_true, if_false]
      exact ih h.2

theorem keysNodup_mapDelete (m : List (String × Nat)) (k : String)
    (h : keysNodup m = true) : keysNodup (mapDelete m k) = true :=
  keysNodup_filter m _ h

theorem any_mapDelete_eqkey (m : List (String × Nat)) (k : String) :
    (mapDelete m k).any (fun q => q.1 == k) = false := by
  induction m with
  | nil => rfl
  | cons p rest ih =>
    by_cases hp : p.1 = k
    · rw [mapDelete_cons, if_pos (beq_iff_eq.mpr hp)]
      exact ih
    · rw [mapDelete_cons, if_neg (by simp [hp]), List.any_cons, Bool.or_eq_false_iff]
      exact ⟨by simp [hp], ih⟩

theorem keysNodup_append_single (m : List (String × Nat)) (k : String) (v : Nat)
    (hm : keysNodup m = true) (hk : m.any (fun q => q.1 == k) = false) :
    keysNodup (m ++ [(k, v)]) = true := by
  induction m with
  | nil => rfl
  | cons p rest ih =>
    simp only [keysNodup, Bool.and_eq_true, Bool.not_eq_true'] at hm
    simp only [List.any_cons, Bool.or_eq_false_iff] at hk
    have hne : ((k, v).1 == p.1) = false := by
      have hne2 : ¬(p.1 = k) := by
        intro hh
        rw [hh] at hk
        exact absurd hk.1 (by simp)
      exact beq_eq_false_iff_ne.mpr (fun hh => hne2 hh.symm)
    rw [List.cons_append]
    show (!((rest ++ [(k, v)]).any (fun q => q.1 == p.1)) &&
      keysNodup (rest ++ [(k, v)])) = true
    rw [Bool.and_eq_true]
    refine ⟨?_, ih hm.2 hk.2⟩
    rw [Bool.not_eq_true', List.any_append, Bool.or_eq_false_iff]
    exact ⟨hm.1, by simp [List.any_cons, List.any_nil, hne]⟩

theorem keysNodup_mapSet (m : List (String × Nat)) (k : String) (v : Nat)
    (hm : keysNodup m = true) : keysNodup (mapSet m k v) = true :=
  keysNodup_append_single _ k v (keysNodup_mapDelete m k hm) (any_mapDelete_eqkey m k)

/-! ## Lemmas: the fail-all loop -/

theorem rejectPending_length (msg : String) (ps : List (String × Nat)) :
    ∀ reqs : List ReqRecord, (rejectPending msg ps reqs).length = reqs.length := by
  induction ps with
  | nil => intro reqs; rfl
  | cons p rest ih =>
    intro reqs
    rw [rejectPending, ih, updateAt_length]

theorem getElem?_rejectPending_pres (P : ReqRecord → Prop) (msg : String)
    (hP : ∀ q, P q → P (completeReq (Outcome.rejected msg) q)) :
    ∀ (ps : List (String × Nat)) (reqs : List ReqRecord) (r : Nat) (q : ReqRecord),
      reqs[r]? = some q → P q →
      ∃ q2, (rejectPending msg ps reqs)[r]? = some q2 ∧ P q2 := by
  intro ps
  induction ps with
  | nil => intro reqs r q hget hq; exact ⟨q, hget, hq⟩
  | cons p rest ih =>
    intro reqs r q hget hq
    obtain ⟨q2, hget2, hq2⟩ :=
      getElem?_updateAt_pres P _ hP reqs p.2 r q hget hq
    exact ih _ r q2 hget2 hq2

theorem failedD_completeReq (msg : String) (q : ReqRecord) (h : pendingD msg q) :
    failedD msg (completeReq (Outcome.rejected msg) q) := by
  rcases h with h | h
  · exact ⟨by rw [settled_completeReq, if_pos h], timerArmed_completeReq _ _⟩
  · exact ⟨completeReq_settled_stable _ _ q h.1, timerArmed_completeReq _ _⟩

theorem failedD_step (msg : String) (q : ReqRecord) (h : failedD msg q) :
    failedD msg (completeReq (Outcome.rejected msg) q) :=
  failedD_completeReq msg q (Or.inr h)

theorem pendingD_completeReq (msg : String) (q : ReqRecord) (h : pendingD msg q) :
    pendingD msg (completeReq (Outcome.rejected msg) q) :=
  Or.inr (failedD_completeReq msg q h)

/-- The fail-all loop rejects every listed entry with `msg` and cancels
its timer. -/
theorem rejectPending_settles (msg : String) :
    ∀ (ps : List (String × Nat)) (reqs : List ReqRecord),
      (∀ p ∈ ps, ∃ q, reqs[p.2]? = some q ∧ pendingD msg q) →
      ∀ p ∈ ps, ∃ q2, (rejectPending msg ps reqs)[p.2]? = some q2 ∧ failedD msg q2 := by
  intro ps
  induction ps with
  | nil => intro reqs _ p hp; cases hp
  | cons p0 rest ih =>
    intro reqs hpre p hp
    rcases List.mem_cons.mp hp with hp | hp
    · subst hp
      obtain ⟨q, hget, hD⟩ := hpre p (List.mem_cons_self p rest)
      have hget2 : (updateAt reqs p.2 (completeReq (Outcome.rejected msg)))[p.2]? =
          some (completeReq (Outcome.rejected msg) q) := by
        rw [getElem?_updateAt_self, hget]
        rfl
      rw [rejectPending]
      exact getElem?_rejectPending_pres (failedD msg) msg (failedD_step msg) rest _
        p.2 _ hget2 (failedD_completeReq msg q hD)
    · rw [rejectPending]
      refine ih _ ?_ p hp
      intro p2 hp2
      obtain ⟨q2, hget2, hD2⟩ := hpre p2 (List.mem_cons_of_mem p0 hp2)
      exact getElem?_updateAt_pres (pendingD msg) _ (pendingD_completeReq msg) reqs
        p0.2 p2.2 q2 hget2 hD2

/-- Settlements already delivered survive the fail-all loop, and the only
new settlements it introduces carry `msg`. -/
theorem settledAt_rejectPending_cases (msg : String) :
    ∀ (ps : List (String × Nat)) (reqs : List ReqRecord) (r : Nat),
      settledAt (rejectPending msg ps reqs) r = settledAt reqs r ∨
      settledAt (rejectPending msg ps reqs) r = some (some (Outcome.rejected msg)) := by
  intro ps
  induction ps with
  | nil => intro reqs r; exact Or.inl rfl
  | cons p0 rest ih =>
    intro reqs r
    rw [rejectPending]
    rcases ih (updateAt reqs p0.2 (completeReq (Outcome.rejected msg))) r with h | h
    · rw [h]
      by_cases hr : r = p0.2
      · subst hr
        unfold settledAt
        rw [getElem?_updateAt_self]
        cases hget : reqs[p0.2]? with
        | none => exact Or.inl rfl
        | some q =>
          by_cases hs : q.settled = none
          · refine Or.inr ?_
            simp [settled_completeReq, hs]
          · refine Or.inl ?_
            simp [settled_completeReq, hs]
      · rw [settledAt, settledAt, getElem?_updateAt_ne _ _ _ _ hr]
        exact Or.inl rfl
    · exact Or.inr h

/-! ## Lemmas: execution -/

theorem run_nil (w : World) : run w [] = w := rfl

theorem run_cons (w : World) (e : Event) (tr : List Event) :
    run w (e :: tr) = run (step w e) tr := rfl

theorem run_append (w : World) (t1 t2 : List Event) :
    run w (t1 ++ t2) = run (run w t1) t2 :=
  List.foldl_append step w t1 t2

theorem run_preserve (P : World → Prop) (hs : ∀ w e, P w → P (step w e)) :
    ∀ (tr : List Event) (w : World), P w → P (run w tr) := by
  intro tr
  induction tr with
  | nil => intro w h; exact h
  | cons e rest ih => intro w h; exact ih (step w e) (hs w e h)

/-! ## Stability: a delivered outcome never changes -/

theorem settledAt_updateAt_stable (l : List ReqRecord) (n r : Nat)
    (f : ReqRecord → ReqRecord) (o : Outcome)
    (hf : ∀ q, q.settled = some o → (f q).settled = some o)
    (h : settledAt l r = some (some o)) :
    settledAt (updateAt l n f) r = some (some o) := by
  obtain ⟨q, hget, hs⟩ := (settledAt_eq_some l r (some o)).mp h
  obtain ⟨q2, hget2, hs2⟩ :=
    getElem?_updateAt_pres (fun q => q.settled = some o) f hf l n r q hget hs
  exact (settledAt_eq_some _ r (some o)).mpr ⟨q2, hget2, hs2⟩

theorem settledAt_append_stable (l l2 : List ReqRecord) (r : Nat) (o : Outcome)
    (h : settledAt l r = some (some o)) :
    settledAt (l ++ l2) r = some (some o) := by
  obtain ⟨q, hget, hs⟩ := (settledAt_eq_some l r (some o)).mp h
  have hlt : r < l.length := (List.getElem?_eq_some.mp hget).1
  unfold settledAt
  rw [List.getElem?_append_left hlt, hget]
  simp [hs]

theorem settledAt_rejectPending_stable (msg : String) (ps : List (String × Nat))
    (l : List ReqRecord) (r : Nat) (o : Outcome)
    (h : settledAt l r = some (some o)) :
    settledAt (rejectPending msg ps l) r = some (some o) := by
  obtain ⟨q, hget, hs⟩ := (settledAt_eq_some l r (some o)).mp h
  obtain ⟨q2, hget2, hs2⟩ := getElem?_rejectPending_pres (fun q => q.settled = some o) msg
    (fun q hq => completeReq_settled_stable _ _ q hq) ps l r q hget hs
  exact (settledAt_eq_some _ r (some o)).mpr ⟨q2, hget2, hs2⟩

theorem settledOf_handleMessage_stable (w : World) (msg : PluginResponse) (r : Nat)
    (o : Outcome) (h : settledOf w r = some (some o)) :
    settledOf (handleMessage w msg) r = some (some o) := by
  unfold settledOf at h ⊢
  unfold handleMessage
  split
  · exact h
  · split
    · split
      · exact settledAt_updateAt_stable _ _ _ _ o
          (fun q hq => completeReq_settled_stable _ _ q hq) h
      · exact h
    · exact h

theorem settledOf_fireTimer_stable (w : World) (r2 r : Nat)
    (o : Outcome) (h : settledOf w r = some (some o)) :
    settledOf (fireTimer w r2) r = some (some o) := by
  unfold settledOf at h ⊢
  unfold fireTimer
  split
  · exact h
  · split
    · exact settledAt_updateAt_stable _ _ _ _ o
        (fun q hq => completeReq_settled_stable _ _ q hq) h
    · exact h

theorem settledOf_fireSendError_stable (w : World) (r2 r : Nat) (m : String)
    (o : Outcome) (h : settledOf w r = some (some o)) :
    settledOf (fireSendError w r2 m) r = some (some o) := by
  unfold settledOf at h ⊢
  unfold fireSendError
  split
  · exact h
  · split
    · exact h
    · exact settledAt_updateAt_stable _ _ _ _ o
        (fun q hq => completeReq_settled_stable _ o _ hq) h

theorem settledOf_handleClose_stable (w : World) (r : Nat)
    (o : Outcome) (h : settledOf w r = some (some o)) :
    settledOf (handleClose w).1 r = some (some o) := by
  unfold settledOf at h ⊢
  unfold handleClose
  split
  · exact h
  · split
    · exact settledAt_rejectPending_stable _ _ _ _ o h
    · exact settledAt_rejectPending_stable _ _ _ _ o h

theorem settledOf_disconnect_stable (w : World) (r : Nat)
    (o : Outcome) (h : settledOf w r = some (some o)) :
    settledOf (disconnect w) r = some (some o) := by
  unfold settledOf at h ⊢
  unfold disconnect
  split
  · exact h
  · exact settledAt_rejectPending_stable _ _ _ _ o h

theorem settledOf_connectSync_stable (w : World) (host : String) (port : Nat) (r : Nat)
    (o : Outcome) (h : settledOf w r = some (some o)) :
    settledOf (connectSync w host port) r = some (some o) := by
  unfold connectSync
  split
  · split
    · exact h
    · split
      · exact settledOf_disconnect_stable w r o h
      · exact h
  · exact h

theorem settledOf_reconnectFire_stable (w : World) (r : Nat)
    (o : Outcome) (h : settledOf w r = some (some o)) :
    settledOf (reconnectFire w) r = some (some o) := by
  unfold reconnectFire
  split
  · exact h
  · split
    · exact h
    · exact settledOf_connectSync_stable _ _ _ r o h

theorem settledOf_sendCommand_stable (w : World) (cmd : String) (t now : Nat)
    (rand : String) (r : Nat) (o : Outcome) (h : settledOf w r = some (some o)) :
    settledOf (sendCommand w cmd t now rand).1 r = some (some o) := by
  unfold settledOf at h ⊢
  unfold sendCommand
  split
  · exact h
  · split
    · exact settledAt_append_stable _ _ _ o h
    · exact h

theorem settledOf_step_stable (w : World) (e : Event) (r : Nat) (o : Outcome)
    (h : settledOf w r = some (some o)) :
    settledOf (step w e) r = some (some o) := by
  cases e with
  | send cmd t now rand => exact settledOf_sendCommand_stable w cmd t now rand r o h
  | message msg => exact settledOf_handleMessage_stable w msg r o h
  | timer r2 => exact settledOf_fireTimer_stable w r2 r o h
  | sendErr r2 m => exact settledOf_fireSendError_stable w r2 r m o h
  | close => exact settledOf_handleClose_stable w r o h
  | reconnect => exact settledOf_reconnectFire_stable w r o h
  | wsOpen =>
    show settledOf (wsOpenEvent w) r = some (some o)
    unfold settledOf at h ⊢
    unfold wsOpenEvent
    split
    · exact h
    · exact h
  | ping => exact h
  | connectTo h2 p => exact settledOf_connectSync_stable w h2 p r o h
  | disconnectCall => exact settledOf_disconnect_stable w r o h

theorem settledOf_run_stable (tr : List Event) (w : World) (r : Nat) (o : Outcome)
    (h : settledOf w r = some (some o)) :
    settledOf (run w tr) r = some (some o) :=
  run_preserve (fun w2 => settledOf w2 r = some (some o))
    (fun w2 e h2 => settledOf_step_stable w2 e r o h2) tr w h

/-! ## Invariant: every registered request is settled or still has an
armed deadline timer -/

theorem all_goodB_rejectPending (msg : String) (ps : List (String × Nat)) :
    ∀ reqs : List ReqRecord, reqs.all goodB = true →
      (rejectPending msg ps reqs).all goodB = true := by
  induction ps with
  | nil => intro reqs h; exact h
  | cons p rest ih =>
    intro reqs h
    rw [rejectPending]
    exact ih _ (all_updateAt goodB _ (goodB_completeReq _) reqs p.2 h)

theorem all_goodB_disconnect (w : World) (h : w.requests.all goodB = true) :
    (disconnect w).requests.all goodB = true := by
  unfold disconnect
  split
  · exact h
  · exact all_goodB_rejectPending _ _ _ h

theorem all_goodB_connectSync (w : World) (host : String) (port : Nat)
    (h : w.requests.all goodB = true) :
    (connectSync w host port).requests.all goodB = true := by
  unfold connectSync
  split
  · split
    · exact h
    · split
      · exact all_goodB_disconnect w h
      · exact h
  · exact h

theorem all_goodB_step (w : World) (e : Event) (h : w.requests.all goodB = true) :
    (step w e).requests.all goodB = true := by
  cases e with
  | send cmd t now rand =>
    show (sendCommand w cmd t now rand).1.requests.all goodB = true
    unfold sendCommand
    split
    · exact h
    · split
      · rw [List.all_append, Bool.and_eq_true]
        exact ⟨h, by simp [goodB]⟩
      · exact h
  | message msg =>
    show (handleMessage w msg).requests.all goodB = true
    unfold handleMessage
    split
    · exact h
    · split
      · split
        · exact all_updateAt goodB _ (goodB_completeReq _) _ _ h
        · exact h
      · exact h
  | timer r2 =>
    show (fireTimer w r2).requests.all goodB = true
    unfold fireTimer
    split
    · exact h
    · split
      · exact all_updateAt goodB _ (goodB_completeReq _) _ _ h
      · exact h
  | sendErr r2 m =>
    show (fireSendError w r2 m).requests.all goodB = true
    unfold fireSendError
    split
    · exact h
    · split
      · exact h
      · exact all_updateAt goodB _ (fun q => goodB_completeReq _ _) _ _ h
  | close =>
    show (handleClose w).1.requests.all goodB = true
    unfold handleClose
    split
    · exact h
    · split
      · exact all_goodB_rejectPending _ _ _ h
      · exact all_goodB_rejectPending _ _ _ h
  | reconnect =>
    show (reconnectFire w).requests.all goodB = true
    unfold reconnectFire
    split
    · exact h
    · split
      · exact h
      · exact all_goodB_connectSync _ _ _ h
  | wsOpen =>
    show (wsOpenEvent w).requests.all goodB = true
    unfold wsOpenEvent
    split
    · exact h
    · exact h
  | ping => exact h
  | connectTo h2 p => exact all_goodB_connectSync w h2 p h
  | disconnectCall => exact all_goodB_disconnect w h

theorem all_goodB_run (tr : List Event) : (run init tr).requests.all goodB = true :=
  run_preserve (fun w => w.requests.all goodB = true)
    (fun w e h => all_goodB_step w e h) tr init rfl

/-! ## Invariant: the pending map never holds two entries with one id -/

theorem wfKeys_disconnect (w : World) : wfKeys (disconnect w) := by
  unfold disconnect
  split
  · intro c hc
    -- disconnect on a null client is the identity, and the hypothesis of
    -- this branch is that the client is null, so the state is unchanged
    rename_i hnone
    rw [hnone] at hc
    cases hc
  · intro c hc
    cases hc

theorem wfKeys_connectSync (w : World) (host : String) (port : Nat)
    (h : wfKeys w) : wfKeys (connectSync w host port) := by
  unfold connectSync
  split
  · split
    · exact h
    · split
      · intro c hc
        cases hc
        rfl
      · intro c hc
        cases hc
        rfl
  · intro c hc
    cases hc
    rfl

theorem wfKeys_step (w : World) (e : Event) (h : wfKeys w) : wfKeys (step w e) := by
  cases e with
  | send cmd t now rand =>
    show wfKeys (sendCommand w cmd t now rand).1
    unfold sendCommand
    split
    · exact h
    · rename_i c hc
      split
      · intro c2 hc2
        cases hc2
        exact keysNodup_mapSet _ _ _ (h c hc)
      · exact h
  | message msg =>
    show wfKeys (handleMessage w msg)
    unfold handleMessage
    split
    · exact h
    · rename_i c hc
      split
      · split
        · intro c2 hc2
          cases hc2
          exact keysNodup_mapDelete _ _ (h c hc)
        · exact h
      · exact h
  | timer r2 =>
    show wfKeys (fireTimer w r2)
    unfold fireTimer
    split
    · exact h
    · split
      · intro c2 hc2
        cases hcs : w.clientState with
        | none => rw [hcs] at hc2; cases hc2
        | some c =>
          rw [hcs] at hc2
          cases hc2
          exact keysNodup_mapDelete _ _ (h c hcs)
      · exact h
  | sendErr r2 m =>
    show wfKeys (fireSendError w r2 m)
    unfold fireSendError
    split
    · exact h
    · split
      · exact h
      · intro c2 hc2
        cases hcs : w.clientState with
        | none => rw [hcs] at hc2; cases hc2
        | some c =>
          rw [hcs] at hc2
          cases hc2
          exact keysNodup_mapDelete _ _ (h c hcs)
  | close =>
    show wfKeys (handleClose w).1
    unfold handleClose
    split
    · exact h
    · split
      · intro c2 hc2
        cases hc2
        rfl
      · intro c2 hc2
        cases hc2
        rfl
  | reconnect =>
    show wfKeys (reconnectFire w)
    unfold reconnectFire
    split
    · exact h
    · rename_i c hc
      split
      · exact h
      · refine wfKeys_connectSync _ _ _ ?_
        intro c2 hc2
        cases hc2
        exact h c hc
  | wsOpen =>
    show wfKeys (wsOpenEvent w)
    unfold wsOpenEvent
    split
    · exact h
    · rename_i c hc
      intro c2 hc2
      cases hc2
      exact h c hc
  | ping => exact h
  | connectTo h2 p => exact wfKeys_connectSync w h2 p h
  | disconnectCall => exact wfKeys_disconnect w

theorem wfKeys_run (tr : List Event) : wfKeys (run init tr) :=
  run_preserve wfKeys (fun w e h => wfKeys_step w e h) tr init
    (fun c hc => by cases hc)

/-! ## Substring lemmas -/

theorem isPrefixB_refl_append (l t : List Char) : isPrefixB l (l ++ t) = true := by
  induction l with
  | nil => rfl
  | cons a as ih => simp [isPrefixB, ih]

theorem isSubstrB_here (n t : List Char) : isSubstrB n (n ++ t) = true := by
  cases n with
  | nil =>
    cases t with
    | nil => rfl
    | cons c cs => simp [isSubstrB, isPrefixB]
  | cons a as => simp [isSubstrB, isPrefixB, isPrefixB_refl_append]

theorem isSubstrB_append_left (n pre hay : List Char) (h : isSubstrB n hay = true) :
    isSubstrB n (pre ++ hay) = true := by
  induction pre with
  | nil => exact h
  | cons c cs ih => simp [isSubstrB, List.cons_append, ih]

theorem isSubstrB_middle (pre n suf : List Char) :
    isSubstrB n (pre ++ (n ++ suf)) = true :=
  isSubstrB_append_left n pre (n ++ suf) (isSubstrB_here n suf)

/-- The timeout message always carries the elapsed duration (the request's
configured timeout in milliseconds). -/
theorem timeoutMessage_contains_duration (t : Nat) :
    isSubstrB (Nat.repr t).data (timeoutMessage t).data = true := by
  show isSubstrB (Nat.repr t).data
    ("Request timed out after " ++ Nat.repr t ++ "ms").data = true
  rw [String.data_append, String.data_append, List.append_assoc]
  exact isSubstrB_middle _ _ _

/-! ## Unpacking a well-formed pending entry -/

theorem entryOk_spec (reqs : List ReqRecord) (p : String × Nat)
    (h : entryOk reqs p = true) :
    ∃ q, reqs[p.2]? = some q ∧ q.settled = none ∧ q.timerArmed = true ∧
      q.rid = p.1 ∧ p.1 ≠ "" := by
  unfold entryOk at h
  cases hg : reqs[p.2]? with
  | none => rw [hg] at h; cases h
  | some q =>
    rw [hg] at h
    simp only [Bool.and_eq_true, beq_iff_eq, bne_iff_ne] at h
    exact ⟨q, rfl, h.1.1.1, h.1.1.2, h.1.2, h.2⟩

/-! ## Claim C1 -/

/-- C1: for every request accepted by `sendCommand` while the connection is
open, exactly one terminal event is delivered to its caller.  Formally,
over any reachable state: (i) a registered request that has not yet been
settled still has its deadline timer armed, so a terminal event (response
match, timeout, send-error or close/disconnect rejection) is still
scheduled — never zero; and (ii) once a terminal outcome has been
delivered, no continuation of the run can change or repeat it — never
two. -/
theorem sendCommand_exactly_one_terminal_event (tr tr2 : List Event) (r : Nat) :
    (settledOf (run init tr) r = some none → armedOf (run init tr) r = true) ∧
    (∀ o, settledOf (run init tr) r = some (some o) →
      settledOf (run (run init tr) tr2) r = some (some o)) := by
  constructor
  · intro h
    obtain ⟨q, hget, hs⟩ := (settledAt_eq_some _ r none).mp h
    have hgood : goodB q = true :=
      List.all_eq_true.mp (all_goodB_run tr) q (List.getElem?_mem hget)
    unfold goodB at hgood
    rw [hs] at hgood
    simp only [bne_self_eq_false, Bool.false_or] at hgood
    unfold armedOf
    rw [hget]
    simpa using hgood
  · intro o h
    exact settledOf_run_stable tr2 _ r o h

theorem sendCommand_exactly_one_terminal_event_witness :
    armedOf (run init trPendingOne) 0 = true ∧
    settledOf (run (run init (trPendingOne ++ [Event.timer 0])) [Event.close]) 0 =
      some (some (Outcome.rejected (timeoutMessage 100))) :=
  ⟨(sendCommand_exactly_one_terminal_event trPendingOne [] 0).1 (by decide),
   (sendCommand_exactly_one_terminal_event (trPendingOne ++ [Event.timer 0])
     [Event.close] 0).2 (Outcome.rejected (timeoutMessage 100)) (by decide)⟩

/-! ## Claim C7 -/

/-- C7 counterexample: request ids are `req_${Date.now()}_${random}`; two
distinct `sendCommand` calls that observe the same millisecond timestamp
and the same random suffix generate the same id, so the generated ids of
one session are not always distinct, contrary to the claim. -/
theorem generateRequestId_collision :
    ((run init collideTrace).requests.map (fun q => q.rid)) =
      [generateRequestId 5 "zz", generateRequestId 5 "zz"] ∧
    ¬ ((run init collideTrace).requests.map (fun q => q.rid)).Nodup := by
  constructor
  · decide
  · decide

/-- C7 (amended): request ids are only probabilistically unique — two calls
observing the same millisecond timestamp and the same random suffix
collide (the later registration then overwrites the earlier pending
entry).  What does hold on every reachable state is the claim's
consequence for the pending-request map: it never contains two entries
with the same id. -/
theorem pending_map_keys_unique (tr : List Event) (c : ClientState)
    (hc : (run init tr).clientState = some c) :
    keysNodup c.pendingRequests = true :=
  wfKeys_run tr c hc

theorem pending_map_keys_unique_witness :
    keysNodup cCollide.pendingRequests = true :=
  pending_map_keys_unique collideTrace cCollide (by decide)

/-! ## Claim C9 -/

/-- C9: an inbound response envelope whose id is not in the pending-request
map is silently dropped: the whole client state — pending requests and all
request promises included — is unchanged, and no error is raised. -/
theorem handleMessage_unknown_id_dropped (w : World) (c : ClientState)
    (msg : PluginResponse) (hc : w.clientState = some c)
    (habs : mapGet c.pendingRequests msg.id = none) :
    handleMessage w msg = w := by
  unfold handleMessage
  split
  · rfl
  · rename_i c2 hc2
    have hce : c2 = c := by
      rw [hc] at hc2
      exact (Option.some.inj hc2).symm
    split
    · split
      · rename_i r hr
        rw [hce, habs] at hr
        cases hr
      · rfl
    · rfl

theorem handleMessage_unknown_id_dropped_witness :
    handleMessage (run init trPendingOne) msgUnknown = run init trPendingOne :=
  handleMessage_unknown_id_dropped (run init trPendingOne) cPending1 msgUnknown
    (by decide) (by decide)

/-! ## Claim C3 -/

/-- C3: on an unplanned close, every pending request is rejected with the
"Connection closed" error, its deadline timer is cancelled, and the
pending map is empty once close handling completes, so a caller can never
observe a closed connection with its request still pending. -/
theorem handleClose_rejects_all_pending (w : World) (c : ClientState)
    (hc : w.clientState = some c)
    (hok : c.pendingRequests.all (entryOk w.requests) = true) :
    (∃ c2, (handleClose w).1.clientState = some c2 ∧
      c2.pendingRequests = [] ∧ c2.ws = none) ∧
    ∀ p ∈ c.pendingRequests,
      ∃ q, (handleClose w).1.requests[p.2]? = some q ∧
        q.settled = some (Outcome.rejected connectionClosedMessage) ∧
        q.timerArmed = false := by
  have hreq : (handleClose w).1.requests =
      rejectPending connectionClosedMessage c.pendingRequests w.requests := by
    unfold handleClose
    rw [hc]
    split
    · rename_i heq
      cases heq
    · rename_i c2 heq
      cases heq
      split
      · rfl
      · rfl
  have hcs : ∃ c2, (handleClose w).1.clientState = some c2 ∧
      c2.pendingRequests = [] ∧ c2.ws = none := by
    unfold handleClose
    rw [hc]
    split
    · rename_i heq
      cases heq
    · rename_i c2 heq
      cases heq
      split
      · exact ⟨_, rfl, rfl, rfl⟩
      · exact ⟨_, rfl, rfl, rfl⟩
  refine ⟨hcs, ?_⟩
  intro p hp
  have hpre : ∀ p2 ∈ c.pendingRequests,
      ∃ q, w.requests[p2.2]? = some q ∧ pendingD connectionClosedMessage q := by
    intro p2 hp2
    obtain ⟨q, hg, hs, _, _, _⟩ :=
      entryOk_spec w.requests p2 (List.all_eq_true.mp hok p2 hp2)
    exact ⟨q, hg, Or.inl hs⟩
  obtain ⟨q2, hg2, hfail⟩ :=
    rejectPending_settles connectionClosedMessage c.pendingRequests w.requests hpre p hp
  exact ⟨q2, by rw [hreq]; exact hg2, hfail.1, hfail.2⟩

theorem handleClose_rejects_all_pending_witness :
    (∃ c2, (handleClose (run init trPendingOne)).1.clientState = some c2 ∧
      c2.pendingRequests = [] ∧ c2.ws = none) ∧
    ∀ p ∈ cPending1.pendingRequests,
      ∃ q, (handleClose (run init trPendingOne)).1.requests[p.2]? = some q ∧
        q.settled = some (Outcome.rejected connectionClosedMessage) ∧
        q.timerArmed = false :=
  handleClose_rejects_all_pending (run init trPendingOne) cPending1
    (by decide) (by decide)

/-! ## Claim C4 -/

/-- C4: a caller-initiated `disconnect` tears the session down: the module
state is nulled (which disables reconnection, discards the keep-alive and
any scheduled reconnect timer, and closes the channel — a subsequently
firing reconnect timer or keep-alive tick is a no-op), and every pending
request is rejected with the "Disconnected" error — distinct from
"Connection closed" — with its timer cancelled, leaving no pending
requests. -/
theorem disconnect_rejects_all_pending_distinct_error (w : World) (c : ClientState)
    (hc : w.clientState = some c)
    (hok : c.pendingRequests.all (entryOk w.requests) = true) :
    (disconnect w).clientState = none ∧
    (∀ p ∈ c.pendingRequests,
      ∃ q, (disconnect w).requests[p.2]? = some q ∧
        q.settled = some (Outcome.rejected disconnectedMessage) ∧
        q.timerArmed = false) ∧
    step (disconnect w) Event.reconnect = disconnect w ∧
    (pingTick (disconnect w)).2 = false ∧
    disconnectedMessage ≠ connectionClosedMessage := by
  have hd : disconnect w =
      { clientState := none,
        requests := rejectPending disconnectedMessage c.pendingRequests w.requests } := by
    unfold disconnect
    rw [hc]
  refine ⟨by rw [hd], ?_, by rw [hd]; rfl, by rw [hd]; rfl, by decide⟩
  intro p hp
  have hpre : ∀ p2 ∈ c.pendingRequests,
      ∃ q, w.requests[p2.2]? = some q ∧ pendingD disconnectedMessage q := by
    intro p2 hp2
    obtain ⟨q, hg, hs, _, _, _⟩ :=
      entryOk_spec w.requests p2 (List.all_eq_true.mp hok p2 hp2)
    exact ⟨q, hg, Or.inl hs⟩
  obtain ⟨q2, hg2, hfail⟩ :=
    rejectPending_settles disconnectedMessage c.pendingRequests w.requests hpre p hp
  exact ⟨q2, by rw [hd]; exact hg2, hfail.1, hfail.2⟩

theorem disconnect_rejects_all_pending_distinct_error_witness :
    (disconnect (run init trPendingOne)).clientState = none ∧
    (∀ p ∈ cPending1.pendingRequests,
      ∃ q, (disconnect (run init trPendingOne)).requests[p.2]? = some q ∧
        q.settled = some (Outcome.rejected disconnectedMessage) ∧
        q.timerArmed = false) ∧
    step (disconnect (run init trPendingOne)) Event.reconnect =
      disconnect (run init trPendingOne) ∧
    (pingTick (disconnect (run init trPendingOne))).2 = false ∧
    disconnectedMessage ≠ connectionClosedMessage :=
  disconnect_rejects_all_pending_distinct_error (run init trPendingOne) cPending1
    (by decide) (by decide)

/-! ## Claim C8 -/

/-- C8: calling `connect` with the host and port of an already open
connection returns immediately with the state untouched (idempotent
reuse); calling it with no session, with a different endpoint, or while
the socket is not open installs a fresh session state, first tearing down
any existing socket via `disconnect` — which rejects all pending requests
with the "Disconnected" error. -/
theorem connect_idempotent_reuse_or_teardown :
    (∀ w c h p, w.clientState = some c → c.ws = some true → c.host = h →
      c.port = p → connectSync w h p = w) ∧
    (∀ w h p, w.clientState = none →
      connectSync w h p =
        { clientState := some (freshClientState h p), requests := w.requests }) ∧
    (∀ w c h p, w.clientState = some c →
      ¬(c.ws = some true ∧ c.host = h ∧ c.port = p) →
      (connectSync w h p).clientState = some (freshClientState h p) ∧
      (c.ws.isSome = true →
        c.pendingRequests.all (entryOk w.requests) = true →
        ∀ pr ∈ c.pendingRequests,
          ∃ q, (connectSync w h p).requests[pr.2]? = some q ∧
            q.settled = some (Outcome.rejected disconnectedMessage) ∧
            q.timerArmed = false)) := by
  refine ⟨?_, ?_, ?_⟩
  · intro w c h p hc hw hh hp
    unfold connectSync
    rw [hc]
    have hg : (c.ws == some true && c.host == h && c.port == p) = true := by
      rw [hw, hh, hp]
      simp
    split
    · rename_i c2 heq
      cases heq
      rw [if_pos hg]
    · rename_i heq
      cases heq
  · intro w h p hc
    unfold connectSync
    rw [hc]
  · intro w c h p hc hne
    have hguard : (c.ws == some true && c.host == h && c.port == p) = false := by
      by_cases h1 : c.ws = some true
      · by_cases h2 : c.host = h
        · by_cases h3 : c.port = p
          · exact absurd ⟨h1, h2, h3⟩ hne
          · simp [h3]
        · simp [h2]
      · simp [h1]
    constructor
    · unfold connectSync
      rw [hc]
      split
      · rename_i c2 heq
        cases heq
        rw [if_neg (by rw [hguard]; exact Bool.false_ne_true)]
        split
        · rfl
        · rfl
      · rename_i heq
        cases heq
    · intro hws hok pr hpr
      have hreq : (connectSync w h p).requests =
          rejectPending disconnectedMessage c.pendingRequests w.requests := by
        unfold connectSync
        rw [hc]
        split
        · rename_i c2 heq
          cases heq
          rw [if_neg (by rw [hguard]; exact Bool.false_ne_true), if_pos hws]
          show (disconnect w).requests =
            rejectPending disconnectedMessage c.pendingRequests w.requests
          unfold disconnect
          rw [hc]
        · rename_i heq
          cases heq
      have hpre : ∀ p2 ∈ c.pendingRequests,
          ∃ q, w.requests[p2.2]? = some q ∧ pendingD disconnectedMessage q := by
        intro p2 hp2
        obtain ⟨q, hg2, hs, _, _, _⟩ :=
          entryOk_spec w.requests p2 (List.all_eq_true.mp hok p2 hp2)
        exact ⟨q, hg2, Or.inl hs⟩
      obtain ⟨q2, hg2, hfail⟩ :=
        rejectPending_settles disconnectedMessage c.pendingRequests w.requests hpre pr hpr
      exact ⟨q2, by rw [hreq]; exact hg2, hfail.1, hfail.2⟩

theorem connect_idempotent_reuse_or_teardown_witness :
    connectSync wOpenPing "h" 1 = wOpenPing ∧
    connectSync init "h" 1 =
      { clientState := some (freshClientState "h" 1), requests := init.requests } ∧
    (connectSync (run init trPendingOne) "h" 2).clientState =
      some (freshClientState "h" 2) ∧
    ∃ q, (connectSync (run init trPendingOne) "h" 2).requests[0]? = some q ∧
      q.settled = some (Outcome.rejected disconnectedMessage) ∧
      q.timerArmed = false :=
  ⟨connect_idempotent_reuse_or_teardown.1 wOpenPing cOpen "h" 1 (by decide)
      (by decide) (by decide) (by decide),
   connect_idempotent_reuse_or_teardown.2.1 init "h" 1 (by decide),
   (connect_idempotent_reuse_or_teardown.2.2 (run init trPendingOne) cPending1 "h" 2
      (by decide) (by decide)).1,
   (connect_idempotent_reuse_or_teardown.2.2 (run init trPendingOne) cPending1 "h" 2
      (by decide) (by decide)).2 (by decide) (by decide) ("req_5_ab", 0) (by decide)⟩

/-! ## Claim C5 -/

/-- C5 counterexample: for a pending "screenshot" request with the default
10s timeout, the deadline rejection message produced by the code is
exactly "Request timed out after 10000ms", which does not contain the
command name "screenshot" — so the claim that the timeout message carries
the original command name is false. -/
theorem timeout_message_lacks_command_name :
    (wScreenshot.requests.map (fun q => q.command)) = ["screenshot"] ∧
    settledOf (fireTimer wScreenshot 0) 0 =
      some (some (Outcome.rejected "Request timed out after 10000ms")) ∧
    isSubstrB "screenshot".data "Request timed out after 10000ms".data = false := by
  refine ⟨by decide, by decide, by decide⟩

/-- C5 (amended): when a pending request's deadline fires, that entry —
the one keyed by the request's id — is removed from the pending map, the
caller is rejected with a Timeout error whose message carries the elapsed
duration (the configured timeout in milliseconds) but not the command
name, and everything else is unchanged: the socket, host, port,
reconnection counter and timers, every other pending entry, and every
other request record. -/
theorem fireTimer_timeout_message_and_frame (w : World) (c : ClientState) (r : Nat)
    (q : ReqRecord) (hc : w.clientState = some c) (hq : w.requests[r]? = some q)
    (harm : q.timerArmed = true) (hset : q.settled = none)
    (_hpend : mapGet c.pendingRequests q.rid = some r) :
    settledOf (fireTimer w r) r =
      some (some (Outcome.rejected (timeoutMessage q.timeoutMs))) ∧
    (∃ c2, (fireTimer w r).clientState = some c2 ∧
      c2.pendingRequests = mapDelete c.pendingRequests q.rid ∧
      mapGet c2.pendingRequests q.rid = none ∧
      (∀ k, k ≠ q.rid → mapGet c2.pendingRequests k = mapGet c.pendingRequests k) ∧
      c2.ws = c.ws ∧ c2.host = c.host ∧ c2.port = c.port ∧
      c2.reconnectAttempts = c.reconnectAttempts ∧
      c2.shouldReconnect = c.shouldReconnect ∧
      c2.pingInterval = c.pingInterval ∧
      c2.reconnectTimeout = c.reconnectTimeout) ∧
    (∀ r2, r2 ≠ r → (fireTimer w r).requests[r2]? = w.requests[r2]?) ∧
    isSubstrB (Nat.repr q.timeoutMs).data (timeoutMessage q.timeoutMs).data = true := by
  have hft : fireTimer w r =
      { clientState := some { c with pendingRequests := mapDelete c.pendingRequests q.rid },
        requests := updateAt w.requests r
          (completeReq (Outcome.rejected (timeoutMessage q.timeoutMs))) } := by
    unfold fireTimer
    rw [hq]
    split
    · rename_i heq
      cases heq
    · rename_i q2 heq
      cases heq
      rw [if_pos harm, hc]
      rfl
  refine ⟨?_, ?_, ?_, timeoutMessage_contains_duration q.timeoutMs⟩
  · rw [hft]
    show settledAt (updateAt w.requests r
      (completeReq (Outcome.rejected (timeoutMessage q.timeoutMs)))) r = _
    unfold settledAt
    rw [getElem?_updateAt_self, hq]
    simp [settled_completeReq, hset]
  · refine ⟨{ c with pendingRequests := mapDelete c.pendingRequests q.rid },
      by rw [hft], rfl, mapGet_mapDelete_self c.pendingRequests q.rid, ?_,
      rfl, rfl, rfl, rfl, rfl, rfl, rfl⟩
    intro k hk
    exact mapGet_mapDelete_ne c.pendingRequests q.rid k hk
  · intro r2 hr2
    rw [hft]
    exact getElem?_updateAt_ne w.requests r r2 _ hr2

theorem fireTimer_timeout_message_and_frame_witness :
    settledOf (fireTimer wScreenshot 0) 0 =
      some (some (Outcome.rejected (timeoutMessage 10000))) ∧
    isSubstrB (Nat.repr 10000).data (timeoutMessage 10000).data = true :=
  ⟨(fireTimer_timeout_message_and_frame wScreenshot cPendingScreenshot 0
      reqScreenshot (by decide) (by decide) (by decide) (by decide) (by decide)).1,
   (fireTimer_timeout_message_and_frame wScreenshot cPendingScreenshot 0
      reqScreenshot (by decide) (by decide) (by decide) (by decide) (by decide)).2.2.2⟩

/-! ## Claim C6 -/

/-- C6 counterexample: on the open state `wOpenPing` the keep-alive tick
sends a probe but leaves the whole client state unchanged and schedules no
reconnection.  The client registers no acknowledgment handler of any kind
(the embedded event set is exhaustive for the source), so a probe that
never receives an acknowledgment cannot trigger a forced reconnection —
contrary to the claim, loss is only ever detected through the socket's
close event. -/
theorem pingTick_no_reconnect_on_missing_ack :
    (pingTick wOpenPing).2 = true ∧
    (pingTick wOpenPing).1 = wOpenPing ∧
    ((pingTick wOpenPing).1.clientState.map (fun c => c.reconnectTimeout)) =
      some none := by
  refine ⟨by decide, by decide, by decide⟩

/-- C6 (amended): while the connection is open a liveness probe is sent
every 30 seconds (`pingIntervalMs = 30000`, and the tick sends a ping
frame exactly when the socket's readyState is OPEN), but the client does
not track acknowledgments: the keep-alive tick never modifies the client
state, so a missed acknowledgment triggers nothing — connection loss is
detected only via the close event. -/
theorem pingTick_interval_and_no_state_effect :
    pingIntervalMs = 30000 ∧
    (∀ w, (pingTick w).1 = w) ∧
    (∀ w c, w.clientState = some c → (pingTick w).2 = (c.ws == some true)) ∧
    (∀ w, w.clientState = none → (pingTick w).2 = false) := by
  refine ⟨rfl, fun w => rfl, ?_, ?_⟩
  · intro w c hc
    unfold pingTick
    rw [hc]
  · intro w hc
    unfold pingTick
    rw [hc]

theorem pingTick_interval_and_no_state_effect_witness :
    (pingTick wOpenPing).2 = (cOpen.ws == some true) ∧
    (pingTick (disconnect wOpenPing)).2 = false :=
  ⟨pingTick_interval_and_no_state_effect.2.2.1 wOpenPing cOpen (by decide),
   pingTick_interval_and_no_state_effect.2.2.2 (disconnect wOpenPing) (by decide)⟩

/-! ## Claim C2 -/

/-- C2 (code bug): the reconnection bound is ineffective.  After an
unplanned loss the counter is 1 and a reconnection is scheduled — but the
scheduled `connect` call recreates the client state with
`reconnectAttempts: 0` before any socket opens, so (second conjunct) the
counter is reset to zero by merely attempting to reconnect, not by a
successful open.  While the server stays down, one failed
attempt-and-close cycle maps the state back to itself exactly (third
conjunct), and after four full failed cycles — more than
`maxReconnectAttempts = 3` — a further reconnection is still scheduled
with the counter at 1 (fourth conjunct): reconnection retries forever
instead of stopping after 3 attempts. -/
theorem reconnect_unbounded_retry_code_bug :
    (afterFirstLoss.clientState.map
      (fun c => (c.reconnectAttempts, c.reconnectTimeout))) =
      some (1, some (defaultHost, defaultPort)) ∧
    ((run afterFirstLoss [Event.reconnect]).clientState.map
      (fun c => c.reconnectAttempts)) = some 0 ∧
    run afterFirstLoss serverDownCycle = afterFirstLoss ∧
    run afterFirstLoss (cycles 4) = afterFirstLoss := by
  refine ⟨by decide, by decide, by decide, by decide⟩

/-! ## Claim C10: helper lemmas characterising new rejections -/

theorem settledAt_updateAt_outcome (l : List ReqRecord) (n r : Nat) (o o2 : Outcome)
    (f : ReqRecord → ReqRecord)
    (hf : ∀ q, (f q).settled = if q.settled = none then some o else q.settled)
    (h1 : settledAt l r = some none)
    (h2 : settledAt (updateAt l n f) r = some (some o2)) : o2 = o := by
  by_cases hr : r = n
  · subst hr
    obtain ⟨q, hq, hqs⟩ := (settledAt_eq_some l r none).mp h1
    unfold settledAt at h2
    rw [getElem?_updateAt_self, hq] at h2
    simp only [Option.map_some'] at h2
    rw [hf q, if_pos hqs] at h2
    exact (Option.some.inj (Option.some.inj h2)).symm
  · unfold settledAt at h1 h2
    rw [getElem?_updateAt_ne l n r f hr] at h2
    rw [h1] at h2
    cases Option.some.inj h2

theorem rejection_rejectPending (msg : String) (ps : List (String × Nat))
    (l : List ReqRecord) (r : Nat) (m : String)
    (h1 : settledAt l r = some none)
    (h2 : settledAt (rejectPending msg ps l) r = some (some (Outcome.rejected m))) :
    m = msg := by
  rcases settledAt_rejectPending_cases msg ps l r with h | h
  · rw [h] at h2
    exact absurd (h1.symm.trans h2) (by simp)
  · have := h.symm.trans h2
    exact (Outcome.rejected.inj (Option.some.inj (Option.some.inj this))).symm

theorem rejection_disconnect (w : World) (r : Nat) (m : String)
    (h1 : settledOf w r = some none)
    (h2 : settledOf (disconnect w) r = some (some (Outcome.rejected m))) :
    m = disconnectedMessage := by
  unfold settledOf at h1 h2
  unfold disconnect at h2
  split at h2
  · exact absurd (h1.symm.trans h2) (by simp)
  · exact rejection_rejectPending disconnectedMessage _ w.requests r m h1 h2

theorem rejection_connectSync (w : World) (host : String) (port : Nat) (r : Nat)
    (m : String) (h1 : settledOf w r = some none)
    (h2 : settledOf (connectSync w host port) r = some (some (Outcome.rejected m))) :
    m = disconnectedMessage := by
  unfold connectSync at h2
  split at h2
  · split at h2
    · exact absurd (h1.symm.trans h2) (by simp)
    · split at h2
      · exact rejection_disconnect w r m h1 h2
      · exact absurd (h1.symm.trans h2) (by simp)
  · exact absurd (h1.symm.trans h2) (by simp)

theorem rejection_reconnectFire (w : World) (r : Nat) (m : String)
    (h1 : settledOf w r = some none)
    (h2 : settledOf (reconnectFire w) r = some (some (Outcome.rejected m))) :
    m = disconnectedMessage := by
  unfold reconnectFire at h2
  split at h2
  · exact absurd (h1.symm.trans h2) (by simp)
  · rename_i c hc
    split at h2
    · exact absurd (h1.symm.trans h2) (by simp)
    · rename_i hp hrt
      exact rejection_connectSync
        { clientState := some { c with reconnectTimeout := none },
          requests := w.requests } hp.1 hp.2 r m h1 h2

theorem rejection_handleClose (w : World) (r : Nat) (m : String)
    (h1 : settledOf w r = some none)
    (h2 : settledOf (handleClose w).1 r = some (some (Outcome.rejected m))) :
    m = connectionClosedMessage := by
  unfold settledOf at h1 h2
  unfold handleClose at h2
  split at h2
  · exact absurd (h1.symm.trans h2) (by simp)
  · split at h2
    · exact rejection_rejectPending connectionClosedMessage _ w.requests r m h1 h2
    · exact rejection_rejectPending connectionClosedMessage _ w.requests r m h1 h2

theorem settledAt_append_none (l l2 : List ReqRecord) (r : Nat)
    (h : settledAt l r = some none) : settledAt (l ++ l2) r = some none := by
  obtain ⟨q, hget, hs⟩ := (settledAt_eq_some l r none).mp h
  have hlt : r < l.length := (List.getElem?_eq_some.mp hget).1
  unfold settledAt
  rw [List.getElem?_append_left hlt, hget]
  simp [hs]

theorem rejection_handleMessage (w : World) (msg : PluginResponse) (r : Nat)
    (m : String) (h1 : settledOf w r = some none)
    (h2 : settledOf (handleMessage w msg) r = some (some (Outcome.rejected m))) :
    False := by
  unfold settledOf at h1 h2
  unfold handleMessage at h2
  split at h2
  · exact absurd (h1.symm.trans h2) (by simp)
  · split at h2
    · split at h2
      · have := settledAt_updateAt_outcome w.requests _ r (Outcome.resolved msg)
          (Outcome.rejected m) _ (fun q2 => settled_completeReq _ q2) h1 h2
        exact Outcome.noConfusion this
      · exact absurd (h1.symm.trans h2) (by simp)
    · exact absurd (h1.symm.trans h2) (by simp)

theorem rejection_fireTimer (w : World) (r2 r : Nat) (m : String)
    (h1 : settledOf w r = some none)
    (h2 : settledOf (fireTimer w r2) r = some (some (Outcome.rejected m))) :
    ∃ t, m = timeoutMessage t := by
  unfold settledOf at h1 h2
  unfold fireTimer at h2
  split at h2
  · exact absurd (h1.symm.trans h2) (by simp)
  · rename_i q hq
    split at h2
    · have := settledAt_updateAt_outcome w.requests r2 r
        (Outcome.rejected (timeoutMessage q.timeoutMs)) (Outcome.rejected m) _
        (fun q2 => settled_completeReq _ q2) h1 h2
      exact ⟨q.timeoutMs, Outcome.rejected.inj this⟩
    · exact absurd (h1.symm.trans h2) (by simp)

theorem rejection_fireSendError (w : World) (r2 r : Nat) (em m : String)
    (h1 : settledOf w r = some none)
    (h2 : settledOf (fireSendError w r2 em) r = some (some (Outcome.rejected m))) :
    m = em := by
  unfold settledOf at h1 h2
  unfold fireSendError at h2
  split at h2
  · exact absurd (h1.symm.trans h2) (by simp)
  · split at h2
    · exact absurd (h1.symm.trans h2) (by simp)
    · have := settledAt_updateAt_outcome w.requests r2 r (Outcome.rejected em)
        (Outcome.rejected m) _
        (fun q2 => settled_completeReq (Outcome.rejected em)
          { q2 with sendCbDone := true }) h1 h2
      exact Outcome.rejected.inj this

/-! ## Claim C10 -/

/-- C10: `sendCommand`'s promise is resolved — not rejected — with the
matching response envelope whenever one arrives, whatever its `success`
flag (a remote failure is reported through `success: false`, not a
rejection); rejections happen only for session-level conditions: the
timeout message, a send-callback error with the socket error's own
message, the "Connection closed" rejection of an unplanned close, or the
"Disconnected" rejection of a planned teardown; and `sendCommand` throws
the not-connected error exactly when the socket is not open. -/
theorem sendCommand_resolves_success_false_rejects_only_session :
    (∀ w c msg r q, w.clientState = some c → msg.id ≠ "" →
      mapGet c.pendingRequests msg.id = some r → w.requests[r]? = some q →
      q.settled = none →
      settledOf (handleMessage w msg) r = some (some (Outcome.resolved msg))) ∧
    (∀ w e r m, settledOf w r = some none →
      settledOf (step w e) r = some (some (Outcome.rejected m)) →
      m = connectionClosedMessage ∨ m = disconnectedMessage ∨
      (∃ t, m = timeoutMessage t) ∨ (∃ r2, e = Event.sendErr r2 m)) ∧
    (∀ w cmd t now rand,
      (sendCommand w cmd t now rand).2 = Except.error notConnectedMessage ↔
      isConnected w = false) := by
  refine ⟨?_, ?_, ?_⟩
  · intro w c msg r q hc hid hget hq hqs
    unfold handleMessage
    split
    · rename_i heq
      rw [hc] at heq
      cases heq
    · rename_i c2 heq
      have hce : c2 = c := by
        rw [hc] at heq
        exact (Option.some.inj heq).symm
      subst hce
      split
      · split
        · rename_i r2 hr2
          rw [hget] at hr2
          have hre : r2 = r := (Option.some.inj hr2).symm
          subst hre
          show settledAt (updateAt w.requests r2
            (completeReq (Outcome.resolved msg))) r2 = _
          unfold settledAt
          rw [getElem?_updateAt_self, hq]
          simp [settled_completeReq, hqs]
        · rename_i hr2
          rw [hget] at hr2
          cases hr2
      · rename_i hcond
        exact absurd hid hcond
  · intro w e r m h1 h2
    cases e with
    | send cmd t now rand =>
      exfalso
      have h2b : settledOf (sendCommand w cmd t now rand).1 r =
          some (some (Outcome.rejected m)) := h2
      unfold settledOf at h1 h2b
      unfold sendCommand at h2b
      split at h2b
      · exact absurd (h1.symm.trans h2b) (by simp)
      · split at h2b
        · rw [settledAt_append_none _ _ r h1] at h2b
          cases Option.some.inj h2b
        · exact absurd (h1.symm.trans h2b) (by simp)
    | message msg => exact absurd (rejection_handleMessage w msg r m h1 h2) id
    | timer r2 => exact Or.inr (Or.inr (Or.inl (rejection_fireTimer w r2 r m h1 h2)))
    | sendErr r2 em =>
      have := rejection_fireSendError w r2 r em m h1 h2
      subst this
      exact Or.inr (Or.inr (Or.inr ⟨r2, rfl⟩))
    | close => exact Or.inl (rejection_handleClose w r m h1 h2)
    | reconnect => exact Or.inr (Or.inl (rejection_reconnectFire w r m h1 h2))
    | wsOpen =>
      exfalso
      have h2b : settledOf (wsOpenEvent w) r =
          some (some (Outcome.rejected m)) := h2
      unfold settledOf at h1 h2b
      unfold wsOpenEvent at h2b
      split at h2b
      · exact absurd (h1.symm.trans h2b) (by simp)
      · exact absurd (h1.symm.trans h2b) (by simp)
    | ping => exact absurd (h1.symm.trans h2) (by simp)
    | connectTo h2h p => exact Or.inr (Or.inl (rejection_connectSync w h2h p r m h1 h2))
    | disconnectCall => exact Or.inr (Or.inl (rejection_disconnect w r m h1 h2))
  · intro w cmd t now rand
    cases hcs : w.clientState with
    | none => simp [sendCommand, isConnected, hcs]
    | some c =>
      by_cases hws : (c.ws == some true) = true
      · simp [sendCommand, isConnected, hcs, hws]
      · simp only [Bool.not_eq_true] at hws
        simp [sendCommand, isConnected, hcs, hws]

theorem sendCommand_resolves_success_false_rejects_only_session_witness :
    settledOf (handleMessage (run init trPendingOne) msgFalse) 0 =
      some (some (Outcome.resolved msgFalse)) ∧
    ("Connection closed" = connectionClosedMessage ∨
      "Connection closed" = disconnectedMessage ∨
      (∃ t, "Connection closed" = timeoutMessage t) ∨
      (∃ r2, Event.close = Event.sendErr r2 "Connection closed")) ∧
    ((sendCommand init "screenshot" 10000 5 "ab").2 =
      Except.error notConnectedMessage ↔ isConnected init = false) :=
  ⟨sendCommand_resolves_success_false_rejects_only_session.1
      (run init trPendingOne) cPending1 msgFalse 0 reqEcho (by decide) (by decide)
      (by decide) (by decide) (by decide),
   sendCommand_resolves_success_false_rejects_only_session.2.1
      (run init trPendingOne) Event.close 0 "Connection closed" (by decide) (by decide),
   sendCommand_resolves_success_false_rejects_only_session.2.2 init "screenshot"
      10000 5 "ab"⟩

end TauriMcp
